import Mathlib

/-!
# Verification of the Proxi agent runtime core

Shallow embedding of the Turn Execution Engine (`src/proxi/core/loop.py`,
`src/proxi/core/state.py`, `src/proxi/core/reflection.py`), the Protocol
Client (`src/proxi/mcp/client.py`), the Capability Adapter
(`src/proxi/mcp/adapters.py`), the Capability Multiplexer
(`src/proxi/mcp/multiplexer.py`) and the Sub-Agent Manager
(`src/proxi/agents/registry.py`), together with theorems settling the
stated properties of these components.

External collaborators (the LLM planner, registered tools, sub-agents,
the user-input bridge, the emitter) are modelled as oracles: the claims
quantify over every behavior of those collaborators, so each external
call site is a parameter that may either return a value or raise.
-/

namespace Proxi

/-- Python/JSON values, as they occur in JSON-RPC result envelopes and
tool results: `None`, booleans, integers, strings, lists and
string-keyed dicts (association lists, keys unique). -/
inductive PyVal where
  | pyNone : PyVal
  | pyBool (b : Bool) : PyVal
  | pyInt (n : Int) : PyVal
  | pyStr (s : String) : PyVal
  | pyList (items : List PyVal) : PyVal
  | pyDict (entries : List (String × PyVal)) : PyVal
deriving Repr, Inhabited

mutual

/-- Python `repr(...)` on the embedded values (strings rendered with
single quotes; escaping of quote characters inside strings is not
modelled and no theorem uses such strings). -/
def pyRepr : PyVal → String
  | .pyNone => "None"
  | .pyBool true => "True"
  | .pyBool false => "False"
  | .pyInt n => toString n
  | .pyStr s => "\x27" ++ s ++ "\x27"
  | .pyList xs => "[" ++ pyReprList xs ++ "]"
  | .pyDict es => "\x7b" ++ pyReprDict es ++ "\x7d"

/-- Comma-separated `repr` of list elements. -/
def pyReprList : List PyVal → String
  | [] => ""
  | [x] => pyRepr x
  | x :: y :: xs => pyRepr x ++ ", " ++ pyReprList (y :: xs)

/-- Comma-separated `repr` of dict entries. -/
def pyReprDict : List (String × PyVal) → String
  | [] => ""
  | [(k, v)] => "\x27" ++ k ++ "\x27: " ++ pyRepr v
  | (k, v) :: e :: es => "\x27" ++ k ++ "\x27: " ++ pyRepr v ++ ", " ++ pyReprDict (e :: es)

end

/-- Python `str(...)`: a top-level string is returned as-is, any other
value via `repr`. -/
def pyToStr : PyVal → String
  | .pyStr s => s
  | v => pyRepr v

/-- Python truthiness of the embedded values. -/
def PyVal.truthy : PyVal → Bool
  | .pyNone => false
  | .pyBool b => b
  | .pyInt n => n != 0
  | .pyStr s => s != ""
  | .pyList xs => !xs.isEmpty
  | .pyDict es => !es.isEmpty

/-- Python `dict.get(key)` on an association list (keys unique). -/
def dictGet : List (String × PyVal) → String → Option PyVal
  | [], _ => Option.none
  | (k, v) :: es, key => if k = key then some v else dictGet es key

/-! ## Capability Adapter (src/proxi/mcp/adapters.py) -/

/-- `proxi.tools.base.ToolResult`: the normalized result every Tool
implementation returns. -/
structure ToolResult where
  success : Bool
  output : String
  error : Option PyVal := Option.none
  metadata : List (String × PyVal) := []
deriving Repr

/-- The successful `ToolResult` built at adapters.py lines 63-67:
`metadata = {"mcp_tool": name}`. -/
def mkMCPSuccess (out : String) (toolName : String) : ToolResult :=
  { success := true, output := out, error := Option.none,
    metadata := [("mcp_tool", .pyStr toolName)] }

/-- The `text_parts` accumulation of adapters.py lines 52-58: for each
dict item, `item["text"]` when the key is present, else `item.get("text", "")`
(i.e. `""`) when `item.get("type") == "text"`; non-dict items and other
dicts contribute nothing. -/
def textPartsOf : List PyVal → List PyVal
  | [] => []
  | .pyDict es :: rest =>
    (match dictGet es "text" with
     | some v => v :: textPartsOf rest
     | Option.none =>
       match dictGet es "type" with
       | some (.pyStr t) =>
         if t = "text" then .pyStr "" :: textPartsOf rest else textPartsOf rest
       | some _ => textPartsOf rest
       | Option.none => textPartsOf rest)
  | _ :: rest => textPartsOf rest

/-- The parts list as `str` values when every part is a `str`,
`Option.none` otherwise. -/
def allStrParts : List PyVal → Option (List String)
  | [] => some []
  | .pyStr s :: rest => (allStrParts rest).map (s :: ·)
  | _ :: _ => Option.none

/-- `"\n".join(text_parts)`: succeeds when every part is a `str`,
otherwise raises `TypeError` (modelled as `Option.none`). -/
def joinParts (parts : List PyVal) : Option String :=
  (allStrParts parts).map (String.intercalate "\n")

/-- `MCPToolAdapter.execute` (adapters.py lines 36-75). `callResult`
models the outcome of `await self.mcp_client.call_tool(...)`: `.ok v` is
the returned result envelope, `.error e` an exception with text `e`.
The surrounding try/except makes execute total: every raised error is
normalized to a failed result. A non-dict envelope always raises inside
the try block (`"error" in result` / `result.get` on a non-dict either
raises directly or leads to a raising subscript), so it reaches the
except clause; we model that path directly as a failed result. -/
def mcpExecute (callResult : Except String PyVal) (mcpToolName : String) : ToolResult :=
  match callResult with
  | .error e =>
    { success := false, output := "", error := some (.pyStr ("MCP tool error: " ++ e)) }
  | .ok (.pyDict res) =>
    (match dictGet res "error" with
     | some errVal => { success := false, output := "", error := some errVal }
     | Option.none =>
       let content := (dictGet res "content").getD (.pyList [])
       match content with
       | .pyList items =>
         if items.isEmpty then
           mkMCPSuccess "Tool executed successfully" mcpToolName
         else
           let parts := textPartsOf items
           if parts.isEmpty then
             mkMCPSuccess (pyToStr (.pyList items)) mcpToolName
           else
             match joinParts parts with
             | some out => mkMCPSuccess out mcpToolName
             | Option.none =>
               { success := false, output := "",
                 error := some (.pyStr "MCP tool error: sequence item: expected str instance") }
       | other =>
         if other.truthy then mkMCPSuccess (pyToStr other) mcpToolName
         else mkMCPSuccess "Tool executed successfully" mcpToolName)
  | .ok _ =>
    { success := false, output := "",
      error := some (.pyStr "MCP tool error: unsupported result envelope type") }

/-- Tool specification dict as reported by a capability server
(`tool_spec.get("name", "unknown")`, `tool_spec.get("description", "")`). -/
structure MCPToolSpec where
  specToolName : Option String := Option.none
  specToolDescription : Option String := Option.none
deriving Repr

/-- The fields `MCPToolAdapter.__init__` (adapters.py lines 15-34)
stores: the exposed tool name, the exposed description and the original
server-side tool name kept for routing. -/
structure MCPToolAdapter where
  adapterName : String
  adapterDescription : String
  mcp_tool_name : String
deriving Repr

/-- `MCPToolAdapter.__init__` (adapters.py lines 15-34). -/
def mkMCPToolAdapter (spec : MCPToolSpec) : MCPToolAdapter :=
  let n := spec.specToolName.getD "unknown"
  let d := spec.specToolDescription.getD ""
  { adapterName := "mcp_" ++ n, adapterDescription := "[MCP] " ++ d, mcp_tool_name := n }

/-- `MCPToolAdapter.execute` as invoked on a constructed adapter:
the client is called under `self.mcp_tool_name` (adapters.py line 39),
and the envelope is normalized by `mcpExecute`. `clientCall` is the
oracle for `self.mcp_client.call_tool`. -/
def MCPToolAdapter.executeVia (a : MCPToolAdapter)
    (clientCall : String → Except String PyVal) : ToolResult :=
  mcpExecute (clientCall a.mcp_tool_name) a.mcp_tool_name

/-! ## Capability Multiplexer (src/proxi/mcp/multiplexer.py) -/

/-- One backing `MCPAdapter` as seen by the multiplexer loop: the only
method the probe uses is `get_tools()`, modelled as its outcome (tool
names exposed, or a raised exception). -/
structure MuxAdapter where
  get_tools : Except String (List String)

/-- Attribute access `adapter.call_tool` on an `MCPAdapter` instance:
class `MCPAdapter` (adapters.py lines 78-105) defines only
`__init__`, `initialize`, `get_tools` and `close`, so the access raises
`AttributeError`. -/
def mcpAdapterCallToolAttr : Except String PyVal :=
  .error "AttributeError: \x27MCPAdapter\x27 object has no attribute \x27call_tool\x27"

/-- The adapter probe loop of `MCPMultiplexer.call_tool`
(multiplexer.py lines 80-98): per adapter, a try block runs
`get_tools()`, tests ownership of the name, and on ownership evaluates
`adapter.call_tool(...)`; any exception is caught and probing continues;
after the loop a `ValueError` is raised. -/
def muxCallToolGo (tool_name : String) : List MuxAdapter → Except String PyVal
  | [] => .error ("ValueError: Tool " ++ tool_name ++ " not found in any MCP server")
  | a :: rest =>
    match a.get_tools with
    | .error _ => muxCallToolGo tool_name rest
    | .ok tools =>
      if tool_name ∈ tools then
        match mcpAdapterCallToolAttr with
        | .error _ => muxCallToolGo tool_name rest
        | .ok v => .ok v
      else muxCallToolGo tool_name rest

/-- `MCPMultiplexer.call_tool` (multiplexer.py lines 75-98). -/
def muxCallTool (initializedFlag : Bool) (adapters : List MuxAdapter)
    (tool_name : String) : Except String PyVal :=
  if initializedFlag then muxCallToolGo tool_name adapters
  else .error "RuntimeError: Multiplexer not initialized"

/-! ## Sub-Agent Manager (src/proxi/agents/registry.py) -/

/-- `proxi.agents.base.SubAgentResult` as constructed by the manager. -/
structure SubAgentResult where
  summary : String
  artifacts : List (String × PyVal) := []
  confidence : Rat := 0
  success : Bool
  error : Option String := Option.none
  follow_up_suggestions : List String := []

/-- One possible behavior of `agent.run(...)` under `asyncio.wait_for`:
it returns a result, raises an exception with text `msg`, raises
`asyncio.TimeoutError` itself, or never returns (so the `wait_for`
deadline fires). -/
inductive AgentRunBehavior where
  | returns (r : SubAgentResult)
  | raises (msg : String)
  | raisesTimeout
  | hangs

/-- `SubAgentManager.run` (registry.py lines 55-147). `registry` is the
oracle for `self.registry.get` composed with the agent behavior;
`maxTimeRepr` and `elapsedRepr` stand for the `str(...)` renderings of
the float `max_time` and of the measured `elapsed:.2f`, which only enter
the message texts. The try/except over `wait_for` catches
`asyncio.TimeoutError` (the `hangs`/`raisesTimeout` cases) and every
other `Exception`, so the function is total: it always returns a
`SubAgentResult` and never raises. -/
def subAgentManagerRun (registry : String → Option AgentRunBehavior)
    (agent_name : String) (maxTimeRepr elapsedRepr : String) : SubAgentResult :=
  match registry agent_name with
  | Option.none =>
    { summary := "Sub-agent \x27" ++ agent_name ++ "\x27 not found",
      artifacts := [], confidence := 0, success := false,
      error := some ("Sub-agent \x27" ++ agent_name ++ "\x27 not found in registry") }
  | some (.returns r) => r
  | some .hangs =>
    { summary := "Sub-agent \x27" ++ agent_name ++ "\x27 timed out after " ++ elapsedRepr ++ "s",
      artifacts := [], confidence := 0, success := false,
      error := some ("Sub-agent execution exceeded maximum time of " ++ maxTimeRepr ++ "s") }
  | some .raisesTimeout =>
    { summary := "Sub-agent \x27" ++ agent_name ++ "\x27 timed out after " ++ elapsedRepr ++ "s",
      artifacts := [], confidence := 0, success := false,
      error := some ("Sub-agent execution exceeded maximum time of " ++ maxTimeRepr ++ "s") }
  | some (.raises m) =>
    { summary := "Sub-agent \x27" ++ agent_name ++ "\x27 encountered an error",
      artifacts := [], confidence := 0, success := false,
      error := some m }

/-! ## Protocol Client (src/proxi/mcp/client.py)

The client is embedded as a state machine.  One state holds the fields
of `MCPClient` that the claims concern: `request_id`, the pending-request
map (as the list of pending ids), and for each id the resolution state of
its one-shot future.  `resolveCount` is a ghost counter incremented each
time a slot is resolved (result set, exception set, timeout delivery, or
cancellation), used to state the at-most-once property. -/

/-- Resolution state of a request slot (`asyncio.Future`):
never created, still pending, or resolved in one of the four ways. -/
inductive SlotRes where
  | unres
  | succeeded
  | errored
  | timedOut
  | cancelled
deriving DecidableEq, Repr

/-- `some` of a terminal `SlotRes`. -/
def SlotRes.isResolved : Option SlotRes → Bool
  | some .succeeded => true
  | some .errored => true
  | some .timedOut => true
  | some .cancelled => true
  | _ => false

/-- The `MCPClient` fields the claims concern.  `processAlive` models
`self.process is not None`; `slots` maps an id to the state of the
future registered under it (`Option.none` = id never issued). -/
structure ClientState where
  request_id : Nat
  initializedFlag : Bool
  processAlive : Bool
  pending : List Nat
  slots : Nat → Option SlotRes
  resolveCount : Nat → Nat

/-- `MCPClient.__init__` (client.py lines 16-29): no process, counter at
0, nothing pending. -/
def constructedClient : ClientState :=
  { request_id := 0, initializedFlag := false, processAlive := false,
    pending := [], slots := fun _ => Option.none, resolveCount := fun _ => 0 }

/-- A connected client (process spawned, read loop running), with the
request counter normalized to 0: the baseline state for correlation
traces. -/
def connectedClient : ClientState :=
  { request_id := 0, initializedFlag := true, processAlive := true,
    pending := [], slots := fun _ => Option.none, resolveCount := fun _ => 0 }

/-- A line observed by the background read loop (client.py lines 41-68):
not JSON (skipped), JSON without a usable `id` (skipped), or a JSON
response carrying id `i` and possibly an `error` object. -/
inductive RecvLine where
  | nonJson
  | jsonNoId
  | jsonResp (i : Nat) (isError : Bool)

/-- Interleavable operations on one client: `_send_request` issuing a new
id (lines 74-97), the read loop handling one line (lines 41-68), the
`asyncio.wait_for` timeout of the request with id `i` firing (lines
100-105), and `close()` (lines 190-227). -/
inductive CEvent where
  | send
  | recv (l : RecvLine)
  | timeout (i : Nat)
  | close

/-- One transition of the client state machine, a faithful rendering of
the corresponding code paths:

* `send`: when connected, `request_id += 1` and the future is registered
  under the new id (a disconnected client raises before mutating state);
* `recv`: a response whose id is in the pending map is popped and then
  resolved (error → exception, else result); any other line, including a
  late response for an id no longer pending, changes nothing;
* `timeout i`: `asyncio.wait_for` delivers a timeout only to a future
  that is still unresolved; the handler pops its own id from the map;
* `close`: every future still in the map and not done is cancelled, the
  map is cleared, the process and read task are dropped. -/
def cstep (st : ClientState) : CEvent → ClientState
  | .send =>
    if st.processAlive then
      let rid := st.request_id + 1
      { st with
        request_id := rid
        pending := st.pending ++ [rid]
        slots := fun i => if i = rid then some .unres else st.slots i }
    else st
  | .recv .nonJson => st
  | .recv .jsonNoId => st
  | .recv (.jsonResp i isErr) =>
    if i ∈ st.pending then
      { st with
        pending := st.pending.erase i
        slots := fun j => if j = i then some (if isErr then .errored else .succeeded) else st.slots j
        resolveCount := fun j => if j = i then st.resolveCount j + 1 else st.resolveCount j }
    else st
  | .timeout i =>
    if st.slots i = some .unres then
      { st with
        pending := st.pending.erase i
        slots := fun j => if j = i then some .timedOut else st.slots j
        resolveCount := fun j => if j = i then st.resolveCount j + 1 else st.resolveCount j }
    else st
  | .close =>
    { st with
      pending := []
      slots := fun i => if i ∈ st.pending ∧ st.slots i = some .unres then some .cancelled else st.slots i
      resolveCount := fun i => if i ∈ st.pending ∧ st.slots i = some .unres then st.resolveCount i + 1 else st.resolveCount i
      processAlive := false
      initializedFlag := false }

/-- Run the client from the connected state through a sequence of
events. -/
def runClient (es : List CEvent) : ClientState :=
  es.foldl cstep connectedClient

/-- Primitive observable actions, used to state ordering properties of
`_send_request`: registering a slot under an id (line 90) and writing
the request bytes for an id to stdin (line 94). -/
inductive Prim where
  | register (i : Nat)
  | write (i : Nat)
  | other
deriving DecidableEq, Repr

/-- The primitive actions one event performs, in program order:
`_send_request` registers the future under the new id and only then
writes the request bytes. -/
def primsOf (st : ClientState) : CEvent → List Prim
  | .send =>
    if st.processAlive then [.register (st.request_id + 1), .write (st.request_id + 1)]
    else [.other]
  | _ => [.other]

/-- The primitive action trace of an event sequence. -/
def primTrace : ClientState → List CEvent → List Prim
  | _, [] => []
  | st, e :: es => primsOf st e ++ primTrace (cstep st e) es

/-- The ids registered along a primitive trace, in order. -/
def registeredIds : List Prim → List Nat
  | [] => []
  | .register i :: ps => i :: registeredIds ps
  | .write _ :: ps => registeredIds ps
  | .other :: ps => registeredIds ps

/-- Checker: every `write i` is preceded by a `register i`
(`seen` = ids registered so far). -/
def regBeforeWrite (seen : List Nat) : List Prim → Bool
  | [] => true
  | .register i :: ps => regBeforeWrite (i :: seen) ps
  | .write i :: ps => decide (i ∈ seen) && regBeforeWrite seen ps
  | .other :: ps => regBeforeWrite seen ps

/-- Invariant of reachable client states: pending ids are exactly the
ids whose slot is unresolved, ids above `request_id` were never issued,
the pending list has no duplicates, and the ghost counter records
exactly one resolution for each resolved slot and none otherwise. -/
def ClientInv (st : ClientState) : Prop :=
  st.pending.Nodup ∧
  (∀ i, i ∈ st.pending ↔ st.slots i = some .unres) ∧
  (∀ i, st.request_id < i → st.slots i = Option.none) ∧
  (∀ i, st.resolveCount i = if SlotRes.isResolved (st.slots i) then 1 else 0)

/-! ### Protocol Client `initialize` (client.py lines 107-155) -/

/-- The hard-coded value returned by a second `initialize()` call
(client.py line 110). -/
def cachedCapsDefault : PyVal :=
  .pyDict [("protocolVersion", .pyStr "2024-11-05"), ("capabilities", .pyDict [])]

/-- Effects a call to `initialize()` may perform. -/
inductive InitEffect where
  | spawnProcess
  | sendInitRequest
  | sendInitializedNotification
deriving DecidableEq, Repr

/-- `MCPClient.initialize` (client.py lines 107-155), abstracting the
spawn and the `initialize` request into the oracle `serverResult`
(`.ok v`: the correlated response's `result`; `.error e`: the request
raised, e.g. timed out).  Returns the new client flags, the returned or
raised value, and the effects performed.  When `self.initialized` is
already true the method returns the hard-coded default immediately,
performing no effect. -/
def initializeClient (serverResult : Except String PyVal)
    (st : ClientState) : ClientState × Except String PyVal × List InitEffect :=
  if st.initializedFlag then
    (st, .ok cachedCapsDefault, [])
  else
    match serverResult with
    | .error e =>
      ({ st with processAlive := true }, .error e,
       [.spawnProcess, .sendInitRequest])
    | .ok v =>
      ({ st with processAlive := true, initializedFlag := true }, .ok v,
       [.spawnProcess, .sendInitRequest, .sendInitializedNotification])

/-- Bool test for the presence of a key in a result dict (used to
separate two concrete `initialize` results). -/
def hasKey (k : String) : PyVal → Bool
  | .pyDict es => (dictGet es k).isSome
  | _ => false

/-! ## Turn Execution Engine (src/proxi/core/loop.py, state.py, reflection.py)

The loop's collaborators are oracles: `decide` models
`self.planner.decide` via `AgentLoop._decide` (one call per turn), and
`act` models `await self._act(...)` for decision kinds whose act phase
performs external calls (tool execution — including the
`show_collaborative_form` interception and its form bridge — emitter
emissions, and sub-agent runs); each such call either returns an
action-result dict or raises.  For a `RESPOND` decision `_act` is pure
dict construction (loop.py lines 464-468) and cannot raise, so it is
not routed through the oracle. -/

/-- `proxi.core.state.AgentStatus`. -/
inductive AgentStatus where
  | idle
  | running
  | paused
  | completed
  | failed
  | cancelled
deriving DecidableEq, Repr

/-- `proxi.core.state.TurnStatus`. -/
inductive TurnStatus where
  | pending
  | reasoning
  | deciding
  | acting
  | observing
  | reflecting
  | completed
  | error
deriving DecidableEq, Repr

/-- One raw tool-call descriptor dict
`{"id": ..., "type": ..., "function": {"name": ..., "arguments": ...}}`
as stored in an assistant message's `tool_calls` list (`arguments` is a
JSON string). -/
structure ToolCallEntry where
  callId : String
  callType : String
  funcName : String
  funcArguments : String
deriving DecidableEq, Repr

/-- `proxi.core.state.Message`. -/
structure Message where
  role : String
  content : Option String := Option.none
  name : Option String := Option.none
  tool_call_id : Option String := Option.none
  tool_calls : Option (List ToolCallEntry) := Option.none
deriving DecidableEq, Repr

/-- `proxi.core.state.TurnState`, restricted to the fields the claims
read (decision/action-result/reflection payloads and wall-clock stamps
are dropped; they never feed back into control flow). -/
structure TurnState where
  turn_number : Nat
  status : TurnStatus
  tokens_used : Nat := 0
  error : Option String := Option.none
  observation : Option String := Option.none
deriving Repr

/-- `proxi.core.state.AgentState`, restricted to the fields the loop
reads and writes (`context_refs`, timestamps and the workspace sink are
dropped; history persistence is best-effort and never affects control
flow). -/
structure AgentState where
  status : AgentStatus
  current_turn : Nat
  max_turns : Nat
  history : List Message
  turns : List TurnState
  total_tokens : Nat
deriving Repr

/-- `AgentState.is_done` (state.py lines 129-131). -/
def AgentState.is_done (s : AgentState) : Bool :=
  decide (s.status = .completed) || decide (s.status = .failed) ||
    decide (s.status = .cancelled)

/-- `AgentState.can_continue` (state.py lines 133-139). -/
def AgentState.can_continue (s : AgentState) : Bool :=
  !s.is_done && decide (s.current_turn < s.max_turns) && decide (s.status = .running)

/-- `AgentState.add_message` (state.py lines 106-117; the best-effort
jsonl append is dropped). -/
def addMessage (s : AgentState) (m : Message) : AgentState :=
  { s with history := s.history ++ [m] }

/-- `AgentState.add_turn` (state.py lines 119-121). -/
def addTurn (s : AgentState) (t : TurnState) : AgentState :=
  { s with turns := s.turns ++ [t] }

/-- `ModelDecision` as the loop dispatches on it (loop.py lines
134-147, 329-333, 394-397): the decision type together with the payload
keys the loop reads.  For `toolCall`, `callId`/`toolName`/`argumentsJson`
are `payload["id"]`/`payload["name"]`/`json.dumps(payload["arguments"])`
and `tool_calls` is the optional raw `payload["tool_calls"]` list the
LLM binding stores (openai.py lines 146-183). -/
inductive ModelDecision where
  | respond (content : String)
  | toolCall (callId : String) (toolName : String) (argumentsJson : String)
      (tool_calls : Option (List ToolCallEntry))
  | subAgentCall (agent : String) (task : String)
deriving Repr

/-- The action-result dict `_act` returns, restricted to the keys
`_observe` reads.  `confidenceRepr` stands for the f-string rendering
`{confidence:.2f}`. -/
structure ActionResult where
  rtype : String
  tool : Option String := Option.none
  agent : Option String := Option.none
  success : Bool := false
  output : String := ""
  errorText : Option String := Option.none
  content : String := ""
  summary : String := ""
  confidenceRepr : String := "0.00"
deriving Repr

/-- Rendering of `action_result.get(key)` inside an f-string: Python
prints `None` for an absent key. -/
def optStr (o : Option String) : String := o.getD "None"

/-- `AgentLoop._observe` (loop.py lines 558-581). -/
def observeResult (r : ActionResult) : String :=
  if r.rtype = "tool_call" then
    if r.success then
      "Tool \x27" ++ optStr r.tool ++ "\x27 executed successfully:\n" ++ r.output
    else
      "Tool \x27" ++ optStr r.tool ++ "\x27 failed: " ++ (r.errorText.getD "Unknown error")
  else if r.rtype = "respond" then r.content
  else if r.rtype = "sub_agent_call" then
    if r.success then
      "Sub-agent \x27" ++ optStr r.agent ++ "\x27 completed successfully (confidence: " ++
        r.confidenceRepr ++ "):\n" ++ r.summary
    else
      "Sub-agent \x27" ++ optStr r.agent ++ "\x27 failed: " ++ (r.errorText.getD "Unknown error")
  else "Unknown action result type: " ++ r.rtype

/-- `Reflector.should_retry` (reflection.py lines 72-91), taking the
already-incremented `state.current_turn`. -/
def shouldRetry (current_turn max_turns : Nat) (turnStatus : TurnStatus) : Bool :=
  if turnStatus ≠ TurnStatus.error then false
  else if max_turns ≤ current_turn then false
  else true

/-- Oracle for the loop's external collaborators.  `decide t` is the
planner call made on turn `t`; `act t i` is the `i`-th `_act` dispatch
of turn `t` (index 0 except inside a batched tool call). -/
structure LoopEnv where
  decide : Nat → Except String (ModelDecision × Nat)
  act : Nat → Nat → Except String ActionResult

/-- The observable per-session events claim C1 speaks about: planner
(Decide) calls and messages appended to `state.history`. -/
inductive LoopEvent where
  | decideCall (turn : Nat)
  | emitMsg (m : Message)
deriving Repr

/-- Error handler of the per-turn try/except (loop.py lines 276-284):
mark the turn ERROR, ask `should_retry`, and on refusal set the overall
status FAILED. -/
def errorTurnExit (s : AgentState) (turnNo tokens : Nat) (e : String) : AgentState :=
  let s := addTurn s { turn_number := turnNo, status := .error, tokens_used := tokens, error := some e }
  if shouldRetry s.current_turn s.max_turns .error then s else { s with status := .failed }

/-- Sequential execution of a batched tool call list (loop.py lines
160-190): each member call runs through `_act`; the first raised
exception aborts the batch and propagates. -/
def execCalls (env : LoopEnv) (turnNo : Nat) :
    Nat → List ToolCallEntry → Except String (List (ToolCallEntry × ActionResult))
  | _, [] => .ok []
  | idx, tc :: rest =>
    match env.act turnNo idx with
    | .error e => .error e
    | .ok r =>
      match execCalls env turnNo (idx + 1) rest with
      | .error e => .error e
      | .ok rs => .ok ((tc, r) :: rs)

/-- One iteration of the `while state.can_continue()` body (loop.py
lines 108-287), returning the updated state and the events of the
iteration.  Mirrors the source:

* increment `current_turn`, create the turn;
* Decide via the planner (an exception goes to the error handler);
* `TOOL_CALL`: default a missing/empty `payload["tool_calls"]` to a
  synthesized single-entry list; append the assistant message carrying
  the raw descriptors; then either fan out over the batch (appending
  one tool message per entry after all complete) or, for a single call,
  run `_act` once and append one tool message built from
  `payload["id"]`/`payload["name"]`;
* `SUB_AGENT_CALL`: run `_act`, append one assistant message with the
  observation;
* `RESPOND`: mark the session COMPLETED and append the final assistant
  message;
* any exception raised while acting lands in the error handler having
  already appended whatever messages preceded it. -/
def runTurn (env : LoopEnv) (s : AgentState) : AgentState × List LoopEvent :=
  let turnNo := s.current_turn + 1
  let s := { s with current_turn := turnNo }
  match env.decide turnNo with
  | .error e => (errorTurnExit s turnNo 0 e, [.decideCall turnNo])
  | .ok (d, usage) =>
    let s := { s with total_tokens := s.total_tokens + usage }
    match d with
    | .toolCall callId toolName argsJson tcsOpt =>
      let tool_calls :=
        match tcsOpt with
        | Option.none => [⟨callId, "function", toolName, argsJson⟩]
        | some [] => [⟨callId, "function", toolName, argsJson⟩]
        | some (tc :: tcs) => tc :: tcs
      let asstMsg : Message := { role := "assistant", tool_calls := some tool_calls }
      if 1 < tool_calls.length then
        let s := addMessage s asstMsg
        match execCalls env turnNo 0 tool_calls with
        | .error e =>
          (errorTurnExit s turnNo usage e, [.decideCall turnNo, .emitMsg asstMsg])
        | .ok results =>
          let toolMsgs := results.map fun pr =>
            ({ role := "tool"
               content := some (observeResult pr.2)
               name := some pr.1.funcName
               tool_call_id := some pr.1.callId } : Message)
          let s := toolMsgs.foldl addMessage s
          let s := addTurn s { turn_number := turnNo, status := .completed, tokens_used := usage }
          (s, [.decideCall turnNo, .emitMsg asstMsg] ++ toolMsgs.map LoopEvent.emitMsg)
      else
        let s := addMessage s asstMsg
        match env.act turnNo 0 with
        | .error e =>
          (errorTurnExit s turnNo usage e, [.decideCall turnNo, .emitMsg asstMsg])
        | .ok r =>
          let obs := observeResult r
          let toolMsg : Message := { role := "tool"
                                     content := some obs
                                     name := some toolName
                                     tool_call_id := some callId }
          let s := addMessage s toolMsg
          let s := addTurn s { turn_number := turnNo
                               status := .completed
                               tokens_used := usage
                               observation := some obs }
          (s, [.decideCall turnNo, .emitMsg asstMsg, .emitMsg toolMsg])
    | .subAgentCall _ _ =>
      match env.act turnNo 0 with
      | .error e => (errorTurnExit s turnNo usage e, [.decideCall turnNo])
      | .ok r =>
        let obs := observeResult r
        let m : Message := { role := "assistant", content := some obs }
        let s := addMessage s m
        let s := addTurn s { turn_number := turnNo
                             status := .completed
                             tokens_used := usage
                             observation := some obs }
        (s, [.decideCall turnNo, .emitMsg m])
    | .respond c =>
      let s := addTurn s { turn_number := turnNo
                           status := .completed
                           tokens_used := usage
                           observation := some c }
      let s := { s with status := .completed }
      let final : Message := { role := "assistant", content := some c }
      let s := addMessage s final
      (s, [.decideCall turnNo, .emitMsg final])

/-- The `while state.can_continue()` loop, fuel-indexed.  Each iteration
increments `current_turn`, so `max_turns - current_turn` fuel always
suffices; fuel-independence beyond that bound is proved below. -/
def loopGo (env : LoopEnv) : Nat → AgentState → AgentState × List LoopEvent
  | 0, s => (s, [])
  | fuel + 1, s =>
    if s.can_continue then
      let p := runTurn env s
      let q := loopGo env fuel p.1
      (q.1, p.2 ++ q.2)
    else (s, [])

/-- The `finally` block of `_run_loop` (loop.py lines 293-296): a
session still RUNNING after the loop is coerced to COMPLETED. -/
def finalizeState (s : AgentState) : AgentState :=
  if s.status = .running then { s with status := .completed } else s

/-- `AgentLoop.run` seeding (loop.py lines 76-83). -/
def initialState (maxTurns : Nat) (initialMessage : String) : AgentState :=
  { status := .running, current_turn := 0, max_turns := maxTurns,
    history := [{ role := "user", content := some initialMessage }],
    turns := [], total_tokens := 0 }

/-- `AgentLoop.run` (loop.py lines 66-84) followed by `_run_loop`
(lines 104-304), returning the final state and the session's event
trace. -/
def agentLoopRun (env : LoopEnv) (maxTurns : Nat) (initialMessage : String) :
    AgentState × List LoopEvent :=
  let p := loopGo env maxTurns (initialState maxTurns initialMessage)
  (finalizeState p.1, p.2)

/-! ### The tool-call/tool-message pairing checker (claim C1) -/

/-- Number of tool-role messages with the given `tool_call_id` among the
events. -/
def countToolMsg (idv : String) : List LoopEvent → Nat
  | [] => 0
  | .emitMsg m :: rest =>
    (if m.role == "tool" && m.tool_call_id == some idv then 1 else 0) + countToolMsg idv rest
  | _ :: rest => countToolMsg idv rest

/-- The events strictly before the next Decide call, or `Option.none`
when no further Decide call occurs. -/
def takeUntilDecide : List LoopEvent → Option (List LoopEvent)
  | [] => Option.none
  | .decideCall _ :: _ => some []
  | e :: rest => (takeUntilDecide rest).map (e :: ·)

/-- Checker for the pairing invariant: every assistant message carrying
tool-call descriptors is followed, before the next Decide call, by
exactly one tool message per declared call id whose `tool_call_id`
matches (vacuous for a trailing segment with no further Decide call). -/
def toolPairingOK : List LoopEvent → Bool
  | [] => true
  | .decideCall _ :: rest => toolPairingOK rest
  | .emitMsg m :: rest =>
    (match m.tool_calls with
     | some l =>
       (match takeUntilDecide rest with
        | Option.none => true
        | some seg => l.all fun tc => countToolMsg tc.callId seg == 1)
     | Option.none => true) && toolPairingOK rest

/-! ### Concrete sessions, servers and registries used as evidence -/

/-- A session environment in which the planner decides a single tool
call (id `call_1`) on turn 1 and acting on it raises (e.g. the form
bridge or a registered tool's `execute` throws); from turn 2 on the
planner responds. -/
def envToolRaises : LoopEnv :=
  { decide := fun t =>
      if t = 1 then .ok (.toolCall "call_1" "boom" "\x7b\x7d" Option.none, 10)
      else .ok (.respond "done", 5)
    act := fun _ _ => .error "RuntimeError: boom" }

/-- A session environment whose planner always responds immediately. -/
def envRespondHi : LoopEnv :=
  { decide := fun _ => .ok (.respond "hi", 7)
    act := fun _ _ => .ok { rtype := "respond", content := "hi" } }

/-- An `initialize` result a server may legitimately send: the protocol
fields plus a `serverInfo` block. -/
def serverInitResultRich : PyVal :=
  .pyDict [("protocolVersion", .pyStr "2024-11-05"), ("capabilities", .pyDict []),
           ("serverInfo", .pyDict [("name", .pyStr "calc")])]

/-- `hasKey` lifted to a non-raised `initialize` return value. -/
def exOkHasKey (k : String) : Except String PyVal → Bool
  | .ok v => hasKey k v
  | .error _ => false

/-- A registry owning exactly one agent, `slow`, whose `run()` never
returns. -/
def registrySlow : String → Option AgentRunBehavior :=
  fun n => if n = "slow" then some .hangs else Option.none

/-! ## Theorems -/

/-- C3: claim refuted by the code.  `MCPMultiplexer.call_tool` on an
initialized multiplexer never routes anything: whatever the adapters
report via `get_tools` — in particular when one of them owns the
requested name — the `adapter.call_tool` attribute access raises
`AttributeError` (class `MCPAdapter` defines no such method), the
per-adapter `except` swallows it, and the probe loop falls through to
the final "not found" `ValueError`. -/
theorem mux_call_tool_always_not_found (adapters : List MuxAdapter) (tool_name : String) :
    muxCallTool true adapters tool_name =
      Except.error ("ValueError: Tool " ++ tool_name ++ " not found in any MCP server") := by
  show muxCallToolGo tool_name adapters = _
  induction adapters with
  | nil => rfl
  | cons a rest ih =>
    unfold muxCallToolGo
    cases a.get_tools with
    | error e => exact ih
    | ok tools =>
      by_cases hmem : tool_name ∈ tools
      · simp only [hmem, if_pos, mcpAdapterCallToolAttr]
        exact ih
      · simp only [hmem, if_neg, if_false]
        exact ih

/-- C10: an adapter built from a server-reported tool spec exposes the
tool as `mcp_` + name with description `[MCP] ` + description, keeps the
original name for routing, never exposes the tool under its own
server-side name, and `execute` calls the client under the original
un-prefixed name. -/
theorem mcp_tool_adapter_renames (spec : MCPToolSpec)
    (clientCall : String → Except String PyVal) :
    (mkMCPToolAdapter spec).adapterName = "mcp_" ++ spec.specToolName.getD "unknown" ∧
    (mkMCPToolAdapter spec).adapterDescription = "[MCP] " ++ spec.specToolDescription.getD "" ∧
    (mkMCPToolAdapter spec).mcp_tool_name = spec.specToolName.getD "unknown" ∧
    (mkMCPToolAdapter spec).adapterName ≠ (mkMCPToolAdapter spec).mcp_tool_name ∧
    (mkMCPToolAdapter spec).executeVia clientCall =
      mcpExecute (clientCall (spec.specToolName.getD "unknown"))
        (spec.specToolName.getD "unknown") := by
  refine ⟨rfl, rfl, rfl, ?_, rfl⟩
  intro h
  have hl : ("mcp_" ++ spec.specToolName.getD "unknown").length =
      (spec.specToolName.getD "unknown").length := congrArg String.length h
  rw [String.length_append] at hl
  have h4 : ("mcp_" : String).length = 4 := rfl
  rw [h4] at hl
  omega

/-- C6: the Sub-Agent Manager normalizes every agent behavior into a
`SubAgentResult` (the embedding is a total function: the source's
try/except over `asyncio.wait_for` catches both the timeout and every
other exception): a hanging agent yields a structured failure whose
error text contains "exceeded maximum time", any other exception yields
a structured failure carrying that exception's text, and an
unregistered name yields a structured failure as well. -/
theorem sub_agent_manager_never_throws (registry : String → Option AgentRunBehavior)
    (agent_name maxTimeRepr elapsedRepr : String) :
    (registry agent_name = some AgentRunBehavior.hangs →
      (subAgentManagerRun registry agent_name maxTimeRepr elapsedRepr).success = false ∧
      ∃ pre suf,
        (subAgentManagerRun registry agent_name maxTimeRepr elapsedRepr).error =
          some ((pre ++ "exceeded maximum time") ++ suf)) ∧
    (∀ m, registry agent_name = some (AgentRunBehavior.raises m) →
      (subAgentManagerRun registry agent_name maxTimeRepr elapsedRepr).success = false ∧
      (subAgentManagerRun registry agent_name maxTimeRepr elapsedRepr).error = some m) ∧
    (∀ r, registry agent_name = some (AgentRunBehavior.returns r) →
      subAgentManagerRun registry agent_name maxTimeRepr elapsedRepr = r) ∧
    (registry agent_name = Option.none →
      (subAgentManagerRun registry agent_name maxTimeRepr elapsedRepr).success = false ∧
      (subAgentManagerRun registry agent_name maxTimeRepr elapsedRepr).error ≠ Option.none) := by
  refine ⟨fun h => ?_, fun m h => ?_, fun r h => ?_, fun h => ?_⟩
  · refine ⟨by unfold subAgentManagerRun; rw [h],
      "Sub-agent execution ", " of " ++ maxTimeRepr ++ "s", ?_⟩
    unfold subAgentManagerRun
    rw [h]
    show some ((("Sub-agent execution exceeded maximum time of ") ++ maxTimeRepr) ++ "s") = _
    rw [show ("Sub-agent execution exceeded maximum time of " : String) =
          ("Sub-agent execution " ++ "exceeded maximum time") ++ " of " from rfl,
        String.append_assoc ("Sub-agent execution " ++ "exceeded maximum time") " of " maxTimeRepr,
        String.append_assoc ("Sub-agent execution " ++ "exceeded maximum time")
          (" of " ++ maxTimeRepr) "s"]
  · exact ⟨by unfold subAgentManagerRun; rw [h],
      by unfold subAgentManagerRun; rw [h]⟩
  · unfold subAgentManagerRun; rw [h]
  · refine ⟨by unfold subAgentManagerRun; rw [h], ?_⟩
    unfold subAgentManagerRun
    rw [h]
    simp

/-- Witness for C6 at a concrete registry: the `slow` agent hangs and
the manager returns a structured timeout failure. -/
theorem sub_agent_manager_never_throws_witness :
    (subAgentManagerRun registrySlow "slow" "0.1" "0.10").success = false ∧
    ∃ pre suf,
      (subAgentManagerRun registrySlow "slow" "0.1" "0.10").error =
        some ((pre ++ "exceeded maximum time") ++ suf) :=
  (sub_agent_manager_never_throws registrySlow "slow" "0.1" "0.10").1 (by rfl)

/-- `text_parts` collected from a content array of `{type:"text", text:t}`
items is exactly the list of the `t`s. -/
theorem textPartsOf_text_items (texts : List String) :
    textPartsOf (texts.map fun t =>
        PyVal.pyDict [("type", PyVal.pyStr "text"), ("text", PyVal.pyStr t)]) =
      texts.map PyVal.pyStr := by
  induction texts with
  | nil => rfl
  | cons t ts ih =>
    show PyVal.pyStr t :: textPartsOf _ = _
    rw [ih]
    rfl

/-- A list of `str` parts joins without a `TypeError`. -/
theorem allStrParts_map_str (texts : List String) :
    allStrParts (texts.map PyVal.pyStr) = some texts := by
  induction texts with
  | nil => rfl
  | cons t ts ih =>
    show (allStrParts (ts.map PyVal.pyStr)).map (t :: ·) = _
    rw [ih]
    rfl

/-- Evaluation of `execute` on an envelope whose content is a list
(the conditions and the trailing match are left symbolic). -/
theorem mcpExecute_dict_content (items : List PyVal) (n : String) :
    mcpExecute (.ok (.pyDict [("content", .pyList items)])) n =
      if items.isEmpty then mkMCPSuccess "Tool executed successfully" n
      else if (textPartsOf items).isEmpty then mkMCPSuccess (pyToStr (.pyList items)) n
      else
        match joinParts (textPartsOf items) with
        | some out => mkMCPSuccess out n
        | Option.none =>
          { success := false, output := "",
            error := some (.pyStr "MCP tool error: sequence item: expected str instance") } := rfl

/-- Evaluation of `execute` on an envelope whose content is a string. -/
theorem mcpExecute_dict_content_str (s n : String) :
    mcpExecute (.ok (.pyDict [("content", .pyStr s)])) n =
      if (PyVal.pyStr s).truthy = true then mkMCPSuccess s n
      else mkMCPSuccess "Tool executed successfully" n := rfl

/-- C7, counterexample to the stringify-fallback clause: on the result
envelope `{"content": []}` the adapter outputs the fixed message
`Tool executed successfully`, which is neither the Python
stringification `str([]) = "[]"` nor an empty concatenation of text
parts — so "any other content shape is stringified" fails at this
input. -/
theorem mcp_execute_empty_content_counterexample :
    (mcpExecute (.ok (.pyDict [("content", .pyList [])])) "add").output =
      "Tool executed successfully" ∧
    (mcpExecute (.ok (.pyDict [("content", .pyList [])])) "add").output ≠
      pyToStr (.pyList []) ∧
    (mcpExecute (.ok (.pyDict [("content", .pyList [])])) "add").output ≠ "" := by
  refine ⟨rfl, ?_, ?_⟩ <;> decide

/-- C7 as amended: `execute` is total (any raised error becomes a failed
result — conjunct 1), a non-empty content array of `{type:"text", text:...}`
items has its text parts concatenated (with newline separators) into the
output (conjunct 2), the concrete `add` scenario returns
`{success: true, output: "5"}` (conjunct 3), the falsy envelope
`content: []` yields the fixed output `Tool executed successfully`
(conjunct 4), and a truthy non-list content value is stringified as a
fallback (conjunct 5, shown for strings). -/
theorem mcp_execute_normalizes (mcpToolName e s : String) (texts : List String) :
    (mcpExecute (.error e) mcpToolName =
      { success := false, output := "",
        error := some (.pyStr ("MCP tool error: " ++ e)) }) ∧
    (texts ≠ [] →
      mcpExecute (.ok (.pyDict [("content",
          .pyList (texts.map fun t =>
            PyVal.pyDict [("type", PyVal.pyStr "text"), ("text", PyVal.pyStr t)]))]))
        mcpToolName =
        mkMCPSuccess (String.intercalate "\n" texts) mcpToolName) ∧
    (mcpExecute (.ok (.pyDict [("content",
        .pyList [.pyDict [("type", .pyStr "text"), ("text", .pyStr "5")]])])) "add" =
      mkMCPSuccess "5" "add") ∧
    (mcpExecute (.ok (.pyDict [("content", .pyList [])])) mcpToolName =
      mkMCPSuccess "Tool executed successfully" mcpToolName) ∧
    (s ≠ "" →
      mcpExecute (.ok (.pyDict [("content", .pyStr s)])) mcpToolName =
        mkMCPSuccess s mcpToolName) := by
  refine ⟨rfl, fun hts => ?_, rfl, rfl, fun hs => ?_⟩
  · cases texts with
    | nil => exact absurd rfl hts
    | cons t ts =>
      have h1 := textPartsOf_text_items (t :: ts)
      have h2 : joinParts ((t :: ts).map PyVal.pyStr) =
          some (String.intercalate "\n" (t :: ts)) := by
        unfold joinParts
        rw [allStrParts_map_str]
        rfl
      rw [mcpExecute_dict_content, h1, h2]
      rfl
  · have htr : (PyVal.pyStr s).truthy = true := by
      simp [PyVal.truthy, hs]
    rw [mcpExecute_dict_content_str, if_pos htr]

/-- Witness for C7 as amended: a two-item text array is joined, and a
truthy string content is passed through. -/
theorem mcp_execute_normalizes_witness :
    ("a" :: ["b"] ≠ []) ∧
    mcpExecute (.ok (.pyDict [("content",
        .pyList (["a", "b"].map fun t =>
          PyVal.pyDict [("type", PyVal.pyStr "text"), ("text", PyVal.pyStr t)]))])) "add" =
      mkMCPSuccess (String.intercalate "\n" ["a", "b"]) "add" :=
  ⟨by decide, ((mcp_execute_normalizes "add" "boom" "hello" ["a", "b"]).2.1 (by decide))⟩

/-- The connected baseline satisfies the client invariant. -/
theorem clientInv_connected : ClientInv connectedClient := by
  refine ⟨List.nodup_nil, fun i => ?_, fun i _ => rfl, fun i => rfl⟩
  simp [connectedClient]

/-- Every client transition preserves the client invariant. -/
theorem clientInv_preserved (st : ClientState) (e : CEvent) (h : ClientInv st) :
    ClientInv (cstep st e) := by
  obtain ⟨hnd, hpend, hfresh, hcount⟩ := h
  cases e with
  | send =>
    simp only [cstep]
    split
    case isTrue hpa =>
      have hridfresh : st.slots (st.request_id + 1) = Option.none :=
        hfresh _ (Nat.lt_succ_self _)
      refine ⟨?_, fun i => ?_, fun i hi => ?_, fun i => ?_⟩
      · refine List.Nodup.append hnd (List.nodup_singleton _) ?_
        intro a ha hb
        rw [List.mem_singleton] at hb
        subst hb
        have := (hpend _).1 ha
        rw [hridfresh] at this
        exact Option.noConfusion this
      · by_cases hi : i = st.request_id + 1
        · subst hi
          simp [List.mem_append]
        · have hmm : (i ∈ st.pending ++ [st.request_id + 1]) ↔ i ∈ st.pending := by
            simp [List.mem_append, hi]
          rw [hmm]
          simpa [hi] using hpend i
      · have hi2 : st.request_id + 1 < i := hi
        have hne : i ≠ st.request_id + 1 := by omega
        have hlt : st.request_id < i := by omega
        simp [hne, hfresh i hlt]
      · by_cases hi : i = st.request_id + 1
        · subst hi
          have h0 := hcount (st.request_id + 1)
          rw [hridfresh] at h0
          simpa [SlotRes.isResolved] using h0
        · simpa [hi] using hcount i
    case isFalse => exact ⟨hnd, hpend, hfresh, hcount⟩
  | recv l =>
    cases l with
    | nonJson => exact ⟨hnd, hpend, hfresh, hcount⟩
    | jsonNoId => exact ⟨hnd, hpend, hfresh, hcount⟩
    | jsonResp i isErr =>
      simp only [cstep]
      split
      case isTrue hmem =>
        have hsl : st.slots i = some SlotRes.unres := (hpend i).1 hmem
        have hile : ¬ st.request_id < i := fun hlt => by
          rw [hfresh i hlt] at hsl
          exact Option.noConfusion hsl
        refine ⟨hnd.erase i, fun j => ?_, fun j hj => ?_, fun j => ?_⟩
        · by_cases hji : j = i
          · subst hji
            constructor
            · intro hin
              exact absurd hin hnd.not_mem_erase
            · intro hres
              cases isErr <;> simp at hres
          · rw [List.mem_erase_of_ne hji]
            simpa [hji] using hpend j
        · have hji : j ≠ i := fun hji => hile (hji ▸ hj)
          simp [hji, hfresh j hj]
        · by_cases hji : j = i
          · subst hji
            have h0 := hcount j
            rw [hsl] at h0
            simp only [SlotRes.isResolved] at h0
            cases isErr <;> simp [SlotRes.isResolved, h0]
          · simpa [hji] using hcount j
      case isFalse => exact ⟨hnd, hpend, hfresh, hcount⟩
  | timeout i =>
    simp only [cstep]
    split
    case isTrue hsl =>
      have hmem : i ∈ st.pending := (hpend i).2 hsl
      have hile : ¬ st.request_id < i := fun hlt => by
        rw [hfresh i hlt] at hsl
        exact Option.noConfusion hsl
      refine ⟨hnd.erase i, fun j => ?_, fun j hj => ?_, fun j => ?_⟩
      · by_cases hji : j = i
        · subst hji
          constructor
          · intro hin
            exact absurd hin hnd.not_mem_erase
          · intro hres
            simp at hres
        · rw [List.mem_erase_of_ne hji]
          simpa [hji] using hpend j
      · have hji : j ≠ i := fun hji => hile (hji ▸ hj)
        simp [hji, hfresh j hj]
      · by_cases hji : j = i
        · subst hji
          have h0 := hcount j
          rw [hsl] at h0
          simp only [SlotRes.isResolved] at h0
          simp [SlotRes.isResolved, h0]
        · simpa [hji] using hcount j
    case isFalse => exact ⟨hnd, hpend, hfresh, hcount⟩
  | close =>
    refine ⟨List.nodup_nil, fun i => ?_, fun i hi => ?_, fun i => ?_⟩
    · show (i ∈ ([] : List Nat)) ↔
        (if i ∈ st.pending ∧ st.slots i = some SlotRes.unres then some SlotRes.cancelled
         else st.slots i) = some SlotRes.unres
      constructor
      · intro hin
        exact absurd hin (List.not_mem_nil i)
      · intro hres
        by_cases hc : i ∈ st.pending ∧ st.slots i = some SlotRes.unres
        · rw [if_pos hc] at hres
          simp at hres
        · rw [if_neg hc] at hres
          exact absurd ⟨(hpend i).2 hres, hres⟩ hc
    · show (if i ∈ st.pending ∧ st.slots i = some SlotRes.unres then some SlotRes.cancelled
         else st.slots i) = Option.none
      have hc : ¬ (i ∈ st.pending ∧ st.slots i = some SlotRes.unres) := by
        rw [hfresh i hi]
        rintro ⟨-, hbad⟩
        exact Option.noConfusion hbad
      rw [if_neg hc]
      exact hfresh i hi
    · show (if i ∈ st.pending ∧ st.slots i = some SlotRes.unres then st.resolveCount i + 1
         else st.resolveCount i) =
        if SlotRes.isResolved
            (if i ∈ st.pending ∧ st.slots i = some SlotRes.unres then some SlotRes.cancelled
             else st.slots i) = true then 1 else 0
      by_cases hc : i ∈ st.pending ∧ st.slots i = some SlotRes.unres
      · have h0 := hcount i
        rw [hc.2] at h0
        simp only [SlotRes.isResolved] at h0
        rw [if_pos hc, if_pos hc]
        simp [SlotRes.isResolved, h0]
      · rw [if_neg hc, if_neg hc]
        exact hcount i

/-- Every reachable client state satisfies the invariant. -/
theorem clientInv_run (es : List CEvent) : ClientInv (runClient es) := by
  suffices h : ∀ st, ClientInv st → ClientInv (es.foldl cstep st) from
    h connectedClient clientInv_connected
  induction es with
  | nil => exact fun st h => h
  | cons e es ih => exact fun st h => ih _ (clientInv_preserved st e h)

/-- C4: a pending response slot is resolved at most once.  The ghost
resolution counter of any reachable client state never exceeds 1 for
any request id; a response line whose id is no longer in the pending map
is ignored (the state is unchanged, so nothing is resolved); and a
firing timeout removes its own id from the pending map. -/
theorem slot_resolved_at_most_once (es : List CEvent) (st : ClientState) (i : Nat) (b : Bool) :
    (runClient es).resolveCount i ≤ 1 ∧
    (i ∉ st.pending → cstep st (.recv (.jsonResp i b)) = st) ∧
    ((cstep st (.timeout i)).pending =
      if st.slots i = some SlotRes.unres then st.pending.erase i else st.pending) := by
  refine ⟨?_, fun hni => ?_, ?_⟩
  · have h := (clientInv_run es).2.2.2 i
    rw [h]
    split <;> omega
  · simp only [cstep]
    rw [if_neg hni]
  · simp only [cstep]
    by_cases hu : st.slots i = some SlotRes.unres
    · rw [if_pos hu, if_pos hu]
    · rw [if_neg hu, if_neg hu]

/-- Witness for C4: after sending request 1 and observing its response
twice (the second line is late), the ghost counter of id 1 is exactly 1;
a late response is literally a no-op; a timeout for the already-resolved
id 1 removes nothing. -/
theorem slot_resolved_at_most_once_witness :
    (runClient [CEvent.send, .recv (.jsonResp 1 false), .recv (.jsonResp 1 false)]).resolveCount 1 ≤ 1 ∧
    cstep (runClient [CEvent.send, .recv (.jsonResp 1 false)]) (.recv (.jsonResp 1 false)) =
      runClient [CEvent.send, .recv (.jsonResp 1 false)] ∧
    (cstep connectedClient (.timeout 1)).pending =
      (if connectedClient.slots 1 = some SlotRes.unres then connectedClient.pending.erase 1
       else connectedClient.pending) := by
  obtain ⟨h1, h2, h3⟩ :=
    slot_resolved_at_most_once [CEvent.send, .recv (.jsonResp 1 false), .recv (.jsonResp 1 false)]
      (runClient [CEvent.send, .recv (.jsonResp 1 false)]) 1 false
  exact ⟨h1, h2 (by decide), (slot_resolved_at_most_once [] connectedClient 1 false).2.2⟩

/-- `request_id` is untouched by non-send events. -/
theorem cstep_request_id_recv (st : ClientState) (l : RecvLine) :
    (cstep st (.recv l)).request_id = st.request_id := by
  cases l with
  | nonJson => rfl
  | jsonNoId => rfl
  | jsonResp i isErr =>
    simp only [cstep]
    split <;> rfl

/-- `request_id` is untouched by a timeout. -/
theorem cstep_request_id_timeout (st : ClientState) (i : Nat) :
    (cstep st (.timeout i)).request_id = st.request_id := by
  simp only [cstep]
  split <;> rfl

/-- Ids registered along a trace are strictly increasing and all above
the starting counter. -/
theorem registeredIds_strict_mono (es : List CEvent) (st : ClientState) :
    List.Pairwise (· < ·) (registeredIds (primTrace st es)) ∧
    ∀ i ∈ registeredIds (primTrace st es), st.request_id < i := by
  induction es generalizing st with
  | nil => exact ⟨List.Pairwise.nil, fun i h => absurd h (List.not_mem_nil i)⟩
  | cons e es ih =>
    cases e with
    | send =>
      by_cases hpa : st.processAlive = true
      · have hrid : (cstep st .send).request_id = st.request_id + 1 := by
          simp only [cstep]
          rw [if_pos hpa]
        have hpr : primTrace st (.send :: es) =
            .register (st.request_id + 1) :: .write (st.request_id + 1) ::
              primTrace (cstep st .send) es := by
          show primsOf st .send ++ _ = _
          simp only [primsOf]
          rw [if_pos hpa]
          rfl
        obtain ⟨ihp, ihb⟩ := ih (cstep st .send)
        rw [hrid] at ihb
        rw [hpr]
        constructor
        · refine List.Pairwise.cons (fun i hi => ?_) ihp
          have := ihb i hi
          omega
        · intro i hi
          rw [show registeredIds (.register (st.request_id + 1) :: .write (st.request_id + 1) ::
                primTrace (cstep st .send) es) =
              (st.request_id + 1) :: registeredIds (primTrace (cstep st .send) es) from rfl] at hi
          rcases List.mem_cons.mp hi with h | h
          · omega
          · have := ihb i h
            omega
      · have hst : cstep st .send = st := by
          simp only [cstep]
          rw [if_neg hpa]
        have hpr : primTrace st (.send :: es) = .other :: primTrace (cstep st .send) es := by
          show primsOf st .send ++ _ = _
          simp only [primsOf]
          rw [if_neg hpa]
          rfl
        rw [hpr, hst]
        exact ⟨(ih st).1, (ih st).2⟩
    | recv l =>
      have hpr : primTrace st (.recv l :: es) = .other :: primTrace (cstep st (.recv l)) es := rfl
      rw [hpr]
      obtain ⟨ihp, ihb⟩ := ih (cstep st (.recv l))
      rw [cstep_request_id_recv] at ihb
      exact ⟨ihp, ihb⟩
    | timeout i =>
      have hpr : primTrace st (.timeout i :: es) = .other :: primTrace (cstep st (.timeout i)) es := rfl
      rw [hpr]
      obtain ⟨ihp, ihb⟩ := ih (cstep st (.timeout i))
      rw [cstep_request_id_timeout] at ihb
      exact ⟨ihp, ihb⟩
    | close =>
      have hpr : primTrace st (.close :: es) = .other :: primTrace (cstep st .close) es := rfl
      rw [hpr]
      obtain ⟨ihp, ihb⟩ := ih (cstep st .close)
      exact ⟨ihp, ihb⟩

/-- Along any trace, every request id is registered in the pending map
before its request bytes are written. -/
theorem register_before_write (es : List CEvent) (st : ClientState) (seen : List Nat) :
    regBeforeWrite seen (primTrace st es) = true := by
  induction es generalizing st seen with
  | nil => rfl
  | cons e es ih =>
    cases e with
    | send =>
      by_cases hpa : st.processAlive = true
      · have hpr : primTrace st (.send :: es) =
            .register (st.request_id + 1) :: .write (st.request_id + 1) ::
              primTrace (cstep st .send) es := by
          show primsOf st .send ++ _ = _
          simp only [primsOf]
          rw [if_pos hpa]
          rfl
        rw [hpr]
        show (decide (st.request_id + 1 ∈ (st.request_id + 1) :: seen) &&
          regBeforeWrite ((st.request_id + 1) :: seen) (primTrace (cstep st .send) es)) = true
        rw [ih]
        simp
      · have hpr : primTrace st (.send :: es) = .other :: primTrace (cstep st .send) es := by
          show primsOf st .send ++ _ = _
          simp only [primsOf]
          rw [if_neg hpa]
          rfl
        rw [hpr]
        exact ih _ _
    | recv l => exact ih _ _
    | timeout i => exact ih _ _
    | close => exact ih _ _

/-- C5: request-id correlation.  Registered ids are strictly increasing
over the client's lifetime (hence pairwise distinct — never reused);
the response slot is registered under the new id before the request
bytes are written; and an id leaves the pending map only through a
matching response line, its own timeout, or `close()`. -/
theorem request_id_correlation (es : List CEvent) (st : ClientState) (e : CEvent) (i : Nat) :
    List.Pairwise (· < ·) (registeredIds (primTrace connectedClient es)) ∧
    (registeredIds (primTrace connectedClient es)).Nodup ∧
    regBeforeWrite [] (primTrace connectedClient es) = true ∧
    (i ∈ st.pending → i ∉ (cstep st e).pending →
      (∃ b, e = .recv (.jsonResp i b)) ∨ e = .timeout i ∨ e = .close) := by
  refine ⟨(registeredIds_strict_mono es connectedClient).1, ?_,
    register_before_write es connectedClient [], fun hmem hout => ?_⟩
  · exact ((registeredIds_strict_mono es connectedClient).1).imp Nat.ne_of_lt
  · cases e with
    | send =>
      exfalso
      apply hout
      simp only [cstep]
      split
      · simp only [List.mem_append]
        exact Or.inl hmem
      · exact hmem
    | recv l =>
      cases l with
      | nonJson => exact absurd hmem hout
      | jsonNoId => exact absurd hmem hout
      | jsonResp j b =>
        simp only [cstep] at hout
        by_cases hmem2 : j ∈ st.pending
        · rw [if_pos hmem2] at hout
          by_cases hij : i = j
          · subst hij
            exact Or.inl ⟨b, rfl⟩
          · exact absurd ((List.mem_erase_of_ne hij).2 hmem) hout
        · rw [if_neg hmem2] at hout
          exact absurd hmem hout
    | timeout j =>
      simp only [cstep] at hout
      by_cases hsl : st.slots j = some SlotRes.unres
      · rw [if_pos hsl] at hout
        by_cases hij : i = j
        · subst hij
          exact Or.inr (Or.inl rfl)
        · exact absurd ((List.mem_erase_of_ne hij).2 hmem) hout
      · rw [if_neg hsl] at hout
        exact absurd hmem hout
    | close => exact Or.inr (Or.inr rfl)

/-- Witness for C5: two sends register ids 1 then 2 (strictly
increasing, distinct, each registered before written), and removing id 1
from a pending map happens here through `close`. -/
theorem request_id_correlation_witness :
    List.Pairwise (· < ·) (registeredIds (primTrace connectedClient [CEvent.send, CEvent.send])) ∧
    (registeredIds (primTrace connectedClient [CEvent.send, CEvent.send])).Nodup ∧
    regBeforeWrite [] (primTrace connectedClient [CEvent.send, CEvent.send]) = true ∧
    ((∃ b, CEvent.close = CEvent.recv (.jsonResp 1 b)) ∨ CEvent.close = CEvent.timeout 1 ∨
      CEvent.close = CEvent.close) := by
  obtain ⟨h1, h2, h3, h4⟩ :=
    request_id_correlation [CEvent.send, CEvent.send] (runClient [CEvent.send]) CEvent.close 1
  exact ⟨h1, h2, h3, h4 (by decide) (by decide)⟩

/-- C8: `close()` is idempotent.  After a close the pending map is empty
(hence it is empty after each of two consecutive closes), a second close
is a no-op on the client state (and, being total, raises nothing), and
every request still pending at the time of the close has its slot
cancelled. -/
theorem close_idempotent (st : ClientState) (i : Nat) :
    (cstep st .close).pending = [] ∧
    cstep (cstep st .close) .close = cstep st .close ∧
    (i ∈ st.pending → st.slots i = some SlotRes.unres →
      (cstep st .close).slots i = some SlotRes.cancelled) := by
  refine ⟨rfl, rfl, fun hmem hsl => ?_⟩
  show (if i ∈ st.pending ∧ st.slots i = some SlotRes.unres then some SlotRes.cancelled
    else st.slots i) = some SlotRes.cancelled
  rw [if_pos ⟨hmem, hsl⟩]

/-- Witness for C8: closing a client with request 1 pending empties the
map, a second close is a no-op, and the pending slot is cancelled. -/
theorem close_idempotent_witness :
    (cstep (runClient [CEvent.send]) .close).pending = [] ∧
    cstep (cstep (runClient [CEvent.send]) .close) .close =
      cstep (runClient [CEvent.send]) .close ∧
    (cstep (runClient [CEvent.send]) .close).slots 1 = some SlotRes.cancelled := by
  obtain ⟨h1, h2, h3⟩ := close_idempotent (runClient [CEvent.send]) 1
  exact ⟨h1, h2, h3 (by decide) (by decide)⟩

/-- C9, counterexample: the value `initialize()` returns on an
already-initialized client is the hard-coded default
`{"protocolVersion": "2024-11-05", "capabilities": {}}`, not a cached
copy of what the first call returned.  With a server whose `initialize`
result also carries a `serverInfo` block, the first call returns that
richer value and the second call returns something different. -/
theorem initialize_not_cached_counterexample :
    (initializeClient (.ok serverInitResultRich) constructedClient).2.1 =
      .ok serverInitResultRich ∧
    (initializeClient (.ok serverInitResultRich)
        (initializeClient (.ok serverInitResultRich) constructedClient).1).2.1 =
      .ok cachedCapsDefault ∧
    exOkHasKey "serverInfo" (.ok serverInitResultRich) = true ∧
    exOkHasKey "serverInfo" (.ok cachedCapsDefault) = false ∧
    (Except.ok serverInitResultRich : Except String PyVal) ≠ .ok cachedCapsDefault := by
  refine ⟨rfl, rfl, rfl, rfl, fun h => ?_⟩
  have hb := congrArg (exOkHasKey "serverInfo") h
  rw [show exOkHasKey "serverInfo" (.ok serverInitResultRich) = true from rfl,
      show exOkHasKey "serverInfo" (.ok cachedCapsDefault) = false from rfl] at hb
  exact Bool.noConfusion hb

/-- C9 as amended: a second `initialize()` on an already-initialized
client is a no-op — it spawns no process and sends no requests — and
returns the fixed default capabilities value (which need not equal the
first call's return value). -/
theorem initialize_second_call_no_op (serverResult : PyVal) (st : ClientState) :
    st.initializedFlag = false →
    (initializeClient (.ok serverResult) st).1.initializedFlag = true ∧
    initializeClient (.ok serverResult) (initializeClient (.ok serverResult) st).1 =
      ((initializeClient (.ok serverResult) st).1, .ok cachedCapsDefault,
        ([] : List InitEffect)) := by
  intro h
  have hstep : initializeClient (.ok serverResult) st =
      ({ st with processAlive := true, initializedFlag := true }, .ok serverResult,
        [.spawnProcess, .sendInitRequest, .sendInitializedNotification]) := by
    unfold initializeClient
    rw [h]
    rfl
  rw [hstep]
  exact ⟨rfl, rfl⟩

/-- Witness for C9 as amended: a fresh client initialized against the
rich server result; the second call is a no-op returning the default. -/
theorem initialize_second_call_no_op_witness :
    (initializeClient (.ok serverInitResultRich) constructedClient).1.initializedFlag = true ∧
    initializeClient (.ok serverInitResultRich)
        (initializeClient (.ok serverInitResultRich) constructedClient).1 =
      ((initializeClient (.ok serverInitResultRich) constructedClient).1,
        .ok cachedCapsDefault, ([] : List InitEffect)) :=
  initialize_second_call_no_op serverInitResultRich constructedClient rfl

@[simp]
theorem addMessage_current_turn (s : AgentState) (m : Message) :
    (addMessage s m).current_turn = s.current_turn := rfl

@[simp]
theorem addMessage_max_turns (s : AgentState) (m : Message) :
    (addMessage s m).max_turns = s.max_turns := rfl

@[simp]
theorem addMessage_status (s : AgentState) (m : Message) :
    (addMessage s m).status = s.status := rfl

@[simp]
theorem addTurn_current_turn (s : AgentState) (t : TurnState) :
    (addTurn s t).current_turn = s.current_turn := rfl

@[simp]
theorem addTurn_max_turns (s : AgentState) (t : TurnState) :
    (addTurn s t).max_turns = s.max_turns := rfl

@[simp]
theorem addTurn_status (s : AgentState) (t : TurnState) :
    (addTurn s t).status = s.status := rfl

@[simp]
theorem foldl_addMessage_current_turn (l : List Message) (s : AgentState) :
    (l.foldl addMessage s).current_turn = s.current_turn := by
  induction l generalizing s with
  | nil => rfl
  | cons m ms ih => exact ih (addMessage s m)

@[simp]
theorem foldl_addMessage_max_turns (l : List Message) (s : AgentState) :
    (l.foldl addMessage s).max_turns = s.max_turns := by
  induction l generalizing s with
  | nil => rfl
  | cons m ms ih => exact ih (addMessage s m)

@[simp]
theorem foldl_addMessage_status (l : List Message) (s : AgentState) :
    (l.foldl addMessage s).status = s.status := by
  induction l generalizing s with
  | nil => rfl
  | cons m ms ih => exact ih (addMessage s m)

/-- One loop iteration increments `current_turn` by exactly one, leaves
`max_turns` alone, and either keeps the status or sets it to COMPLETED
(on RESPOND) or FAILED (when the retry policy refuses). -/
theorem runTurn_props (env : LoopEnv) (s : AgentState) :
    (runTurn env s).1.current_turn = s.current_turn + 1 ∧
    (runTurn env s).1.max_turns = s.max_turns ∧
    ((runTurn env s).1.status = s.status ∨
      (runTurn env s).1.status = AgentStatus.completed ∨
      (runTurn env s).1.status = AgentStatus.failed) := by
  simp only [runTurn, errorTurnExit]
  repeat' split
  all_goals first
    | exact ⟨rfl, rfl, Or.inl rfl⟩
    | exact ⟨rfl, rfl, Or.inr (Or.inl rfl)⟩
    | exact ⟨rfl, rfl, Or.inr (Or.inr rfl)⟩
    | exact ⟨by simp, by simp, Or.inl (by simp)⟩

/-- `can_continue` unfolded: the loop runs exactly while the session is
RUNNING and below the turn budget. -/
theorem can_continue_iff (s : AgentState) :
    s.can_continue = true ↔
      s.status = AgentStatus.running ∧ s.current_turn < s.max_turns := by
  unfold AgentState.can_continue AgentState.is_done
  constructor
  · intro h
    simp only [Bool.and_eq_true, decide_eq_true_eq] at h
    exact ⟨h.2, h.1.2⟩
  · rintro ⟨h1, h2⟩
    simp [h1, h2]

/-- A state that cannot continue is returned unchanged with no events,
whatever the fuel. -/
theorem loopGo_guard_false (env : LoopEnv) (fuel : Nat) (s : AgentState)
    (h : s.can_continue = false) : loopGo env fuel s = (s, []) := by
  cases fuel with
  | zero => rfl
  | succ n =>
    simp only [loopGo]
    rw [if_neg (by simp [h])]

/-- Unfolding of a loop iteration when the guard holds. -/
theorem loopGo_succ_of_true (env : LoopEnv) (n : Nat) (s : AgentState)
    (hc : s.can_continue = true) :
    loopGo env (n + 1) s =
      ((loopGo env n (runTurn env s).1).1,
        (runTurn env s).2 ++ (loopGo env n (runTurn env s).1).2) := by
  simp only [loopGo]
  rw [if_pos hc]

/-- The loop never changes the turn budget. -/
theorem loopGo_max_turns (env : LoopEnv) (fuel : Nat) (s : AgentState) :
    (loopGo env fuel s).1.max_turns = s.max_turns := by
  induction fuel generalizing s with
  | zero => rfl
  | succ n ih =>
    cases hc : s.can_continue
    · rw [loopGo_guard_false env _ s hc]
    · rw [loopGo_succ_of_true env n s hc]
      show (loopGo env n (runTurn env s).1).1.max_turns = s.max_turns
      rw [ih ((runTurn env s).1), (runTurn_props env s).2.1]

/-- The loop keeps `current_turn` within the turn budget. -/
theorem loopGo_current_le (env : LoopEnv) (fuel : Nat) (s : AgentState)
    (h : s.current_turn ≤ s.max_turns) :
    (loopGo env fuel s).1.current_turn ≤ s.max_turns := by
  induction fuel generalizing s with
  | zero => exact h
  | succ n ih =>
    cases hc : s.can_continue
    · rw [loopGo_guard_false env _ s hc]
      exact h
    · rw [loopGo_succ_of_true env n s hc]
      have hlt := ((can_continue_iff s).1 hc).2
      have h1 := (runTurn_props env s).1
      have h2 := (runTurn_props env s).2.1
      have hrec := ih ((runTurn env s).1) (by omega)
      show (loopGo env n (runTurn env s).1).1.current_turn ≤ s.max_turns
      rw [h2] at hrec
      exact hrec

/-- The loop can only produce RUNNING, COMPLETED or FAILED states. -/
theorem loopGo_statusOK (env : LoopEnv) (fuel : Nat) (s : AgentState)
    (h : s.status = AgentStatus.running ∨ s.status = AgentStatus.completed ∨
      s.status = AgentStatus.failed) :
    (loopGo env fuel s).1.status = AgentStatus.running ∨
      (loopGo env fuel s).1.status = AgentStatus.completed ∨
      (loopGo env fuel s).1.status = AgentStatus.failed := by
  induction fuel generalizing s with
  | zero => exact h
  | succ n ih =>
    cases hc : s.can_continue
    · rw [loopGo_guard_false env _ s hc]
      exact h
    · rw [loopGo_succ_of_true env n s hc]
      show (loopGo env n (runTurn env s).1).1.status = _ ∨ _ ∨ _
      apply ih
      rcases (runTurn_props env s).2.2 with h1 | h1 | h1
      · rw [h1]
        exact Or.inl ((can_continue_iff s).1 hc).1
      · exact Or.inr (Or.inl h1)
      · exact Or.inr (Or.inr h1)

/-- Fuel beyond `max_turns - current_turn` does not change the loop's
result: the loop genuinely terminates within the turn budget. -/
theorem loopGo_fuel_stable (env : LoopEnv) (fuel k : Nat) (s : AgentState)
    (h : s.max_turns - s.current_turn ≤ fuel) :
    loopGo env (fuel + k) s = loopGo env fuel s := by
  induction fuel generalizing s k with
  | zero =>
    have hg : s.can_continue = false := by
      cases hc : s.can_continue
      · rfl
      · have := ((can_continue_iff s).1 hc).2
        omega
    rw [loopGo_guard_false env _ s hg, loopGo_guard_false env _ s hg]
  | succ n ih =>
    cases hc : s.can_continue
    · rw [loopGo_guard_false env _ s hc, loopGo_guard_false env _ s hc]
    · have hlt := ((can_continue_iff s).1 hc).2
      have hnk : n + 1 + k = (n + k) + 1 := by omega
      rw [hnk, loopGo_succ_of_true env (n + k) s hc, loopGo_succ_of_true env n s hc]
      have h1 := (runTurn_props env s).1
      have h2 := (runTurn_props env s).2.1
      rw [ih k ((runTurn env s).1) (by omega)]

/-- `finalizeState` only touches the status. -/
theorem finalizeState_fields (s : AgentState) :
    (finalizeState s).current_turn = s.current_turn ∧
    (finalizeState s).max_turns = s.max_turns := by
  unfold finalizeState
  split
  · exact ⟨rfl, rfl⟩
  · exact ⟨rfl, rfl⟩

/-- C2: for every turn budget `N ≥ 1` and every behavior of the planner,
tools and sub-agents, `AgentLoop.run` terminates (its fuel-indexed loop
is stable at `N` iterations) with `current_turn ≤ N` and a final status
in \x7bCOMPLETED, FAILED\x7d; a loop that exits still RUNNING is coerced
to COMPLETED. -/
theorem agent_loop_bounded_termination (env : LoopEnv) (maxTurns : Nat) (msg : String)
    (hN : 1 ≤ maxTurns) :
    (agentLoopRun env maxTurns msg).1.current_turn ≤ maxTurns ∧
    ((agentLoopRun env maxTurns msg).1.status = AgentStatus.completed ∨
      (agentLoopRun env maxTurns msg).1.status = AgentStatus.failed) ∧
    (∀ extra : Nat, loopGo env (maxTurns + extra) (initialState maxTurns msg) =
      loopGo env maxTurns (initialState maxTurns msg)) ∧
    ((loopGo env maxTurns (initialState maxTurns msg)).1.status = AgentStatus.running →
      (agentLoopRun env maxTurns msg).1.status = AgentStatus.completed) := by
  refine ⟨?_, ?_, fun extra => ?_, fun h => ?_⟩
  · have h := loopGo_current_le env maxTurns (initialState maxTurns msg) (Nat.zero_le _)
    calc (agentLoopRun env maxTurns msg).1.current_turn
        = (loopGo env maxTurns (initialState maxTurns msg)).1.current_turn :=
          (finalizeState_fields _).1
      _ ≤ maxTurns := h
  · have hst := loopGo_statusOK env maxTurns (initialState maxTurns msg) (Or.inl rfl)
    show (finalizeState (loopGo env maxTurns (initialState maxTurns msg)).1).status = _ ∨
      (finalizeState (loopGo env maxTurns (initialState maxTurns msg)).1).status = _
    unfold finalizeState
    rcases hst with h | h | h
    · rw [if_pos h]
      exact Or.inl rfl
    · rw [if_neg (by rw [h]; intro hbad; exact AgentStatus.noConfusion hbad)]
      exact Or.inl h
    · rw [if_neg (by rw [h]; intro hbad; exact AgentStatus.noConfusion hbad)]
      exact Or.inr h
  · exact loopGo_fuel_stable env maxTurns extra (initialState maxTurns msg)
      (le_of_eq (Nat.sub_zero maxTurns))
  · show (finalizeState (loopGo env maxTurns (initialState maxTurns msg)).1).status = _
    unfold finalizeState
    rw [if_pos h]

/-- Witness for C2 at a concrete session: a planner that responds on
turn 1 under budget 2. -/
theorem agent_loop_bounded_termination_witness :
    (agentLoopRun envRespondHi 2 "hello").1.current_turn ≤ 2 ∧
    ((agentLoopRun envRespondHi 2 "hello").1.status = AgentStatus.completed ∨
      (agentLoopRun envRespondHi 2 "hello").1.status = AgentStatus.failed) ∧
    (∀ extra : Nat, loopGo envRespondHi (2 + extra) (initialState 2 "hello") =
      loopGo envRespondHi 2 (initialState 2 "hello")) ∧
    ((loopGo envRespondHi 2 (initialState 2 "hello")).1.status = AgentStatus.running →
      (agentLoopRun envRespondHi 2 "hello").1.status = AgentStatus.completed) :=
  agent_loop_bounded_termination envRespondHi 2 "hello" (by decide)

/-- C1: the pairing invariant is violated by the code on the exception
path.  In the session driven by `envToolRaises` the planner declares the
tool call `call_1` on turn 1, acting on it raises, the turn is marked
ERROR and the loop proceeds to the Decide call of turn 2 — so the
assistant message carrying `call_1` is followed by the next Decide call
with no tool message at all (the full event trace is spelled out in the
second conjunct). -/
theorem tool_call_left_unanswered_on_exception :
    toolPairingOK (agentLoopRun envToolRaises 3 "task").2 = false ∧
    (agentLoopRun envToolRaises 3 "task").2 =
      [LoopEvent.decideCall 1,
       LoopEvent.emitMsg
         { role := "assistant"
           content := Option.none
           name := Option.none
           tool_call_id := Option.none
           tool_calls := some [{ callId := "call_1"
                                 callType := "function"
                                 funcName := "boom"
                                 funcArguments := "\x7b\x7d" }] },
       LoopEvent.decideCall 2,
       LoopEvent.emitMsg
         { role := "assistant"
           content := some "done"
           name := Option.none
           tool_call_id := Option.none
           tool_calls := Option.none }] := by
  exact ⟨rfl, rfl⟩

end Proxi
